import Mathlib

/-!
Shallow embedding of the model-registry / fuzzy-resolution / selection /
fallback core of the crawlplexity LiteLLM proxy service
(`src/lib/litellm-service/app.py`, with the legacy variant
`src/litellm-service/app.py` embedded where a claim cites it).

Python strings are modelled as `List Char` (ASCII-faithful), Python floats
as exact rationals `ℚ`, and Python `None` / falsiness of `""` and `0` is
modelled explicitly where the source relies on it.
-/

/-- Python strings, modelled as lists of characters. -/
abbrev Str := List Char

/-- Conversion from a Lean string literal to the Python-string model. -/
def str (s : String) : Str := s.toList

/-- Python `str.lower()` restricted to ASCII, as used by the source on model
identifiers (`requested.lower()` in `calculate_model_similarity`). -/
def pyLower (s : Str) : Str := s.map Char.toLower

/-- Python whitespace characters recognised by `str.strip()` (ASCII subset). -/
def isPySpace (c : Char) : Bool :=
  c = ' ' || c = '\t' || c = '\n' || c = '\r' || c = '\x0b' || c = '\x0c'

/-- Python `str.strip()`: drop leading and trailing whitespace. -/
def pyStrip (s : Str) : Str :=
  ((s.dropWhile isPySpace).reverse.dropWhile isPySpace).reverse

/-- Split a string at the first occurrence of `sep`, returning the parts
before and after it, or `none` when `sep` does not occur.  Models Python
`s.split(sep, 1)` (and the `sep in s` test via `isSome`). -/
def splitFirst (sep : Char) : Str → Option (Str × Str)
  | [] => none
  | c :: rest =>
    if c = sep then some ([], rest)
    else (splitFirst sep rest).map (fun p => (c :: p.1, p.2))

/-- Python `s.split(sep, 2)`: at most three parts. -/
def splitMax2 (sep : Char) (s : Str) : List Str :=
  match splitFirst sep s with
  | none => [s]
  | some (a, rest) =>
    match splitFirst sep rest with
    | none => [a, rest]
    | some (b, rest2) => [a, b, rest2]

/-- Python substring test `needle in hay` for strings. -/
def strContains (needle hay : Str) : Bool :=
  hay.tails.any (fun t => needle.isPrefixOf t)

/-- Rational multiplication, stated through `mkRat` so that it evaluates by
kernel reduction; `qmul_eq` identifies it with `·*·` on `ℚ`. -/
def qmul (a b : ℚ) : ℚ := mkRat (a.num * b.num) (a.den * b.den)

/-- Rational addition, stated through `mkRat` so that it evaluates by kernel
reduction; `qadd_eq` identifies it with `·+·` on `ℚ`. -/
def qadd (a b : ℚ) : ℚ := mkRat (a.num * b.den + b.num * a.den) (a.den * b.den)

/-- Source `extract_model_parts` (app.py lines 123-141): drop a leading
`provider/` segment, then split on the first colon into (base, params);
both parts are stripped, params defaults to the empty string. -/
def extract_model_parts (model_name : Str) : Str × Str :=
  let m :=
    match splitFirst '/' model_name with
    | some p => p.2
    | none => model_name
  match splitFirst ':' m with
  | some p => (pyStrip p.1, pyStrip p.2)
  | none => (pyStrip m, [])

/-- Source `calculate_string_similarity` (app.py lines 143-168): exact
equality scores 1; an empty side scores 0; a substring match scores
`len(shorter)/len(longer)`; otherwise the Jaccard similarity of the two
character sets. -/
def calculate_string_similarity (str1 str2 : Str) : ℚ :=
  if str1 = str2 then 1
  else if str1 = [] ∨ str2 = [] then 0
  else if strContains str1 str2 || strContains str2 str1 then
    mkRat ((min str1.length str2.length : Nat) : Int) (max str1.length str2.length)
  else
    let set1 := str1.toFinset
    let set2 := str2.toFinset
    let i := (set1 ∩ set2).card
    let u := (set1 ∪ set2).card
    if u = 0 then 0 else mkRat i u

/-- Source `calculate_model_similarity` (app.py lines 85-121): lowercase both
names; equal names score 1; otherwise decompose into (base, params), score
the bases, and penalise a params mismatch — `base * 0.5` when the bases are
more than 0.8 similar and both params are non-empty and different, else the
weighted sum `0.7 * base + 0.3 * params`. -/
def calculate_model_similarity (requested available : Str) : ℚ :=
  let req_lower := pyLower requested
  let avail_lower := pyLower available
  if req_lower = avail_lower then 1
  else
    let rp := extract_model_parts req_lower
    let ap := extract_model_parts avail_lower
    let base_similarity := calculate_string_similarity rp.1 ap.1
    let param_similarity : ℚ := if rp.2 = ap.2 then 1 else mkRat 3 10
    if mkRat 8 10 < base_similarity ∧ rp.2 ≠ ap.2 ∧ rp.2 ≠ [] ∧ ap.2 ≠ []
    then qmul base_similarity (mkRat 1 2)
    else qadd (qmul base_similarity (mkRat 7 10)) (qmul param_similarity (mkRat 3 10))

/-- The cleaning step of `find_best_model_match` (app.py lines 50-59): when
the requested id starts with `remote_` and `split('_', 2)` yields three
parts, keep everything after the second underscore; otherwise the id is
unchanged.  (The source has no check on the middle token.) -/
def cleanRemote (requested : Str) : Str :=
  if (str "remote_").isPrefixOf requested then
    match splitMax2 '_' requested with
    | [_, _, rest] => rest
    | _ => requested
  else requested

/-- The scoring loop of `find_best_model_match` (app.py lines 67-76): keep
the best candidate so far, replacing it only on a strictly higher score that
also meets the 0.7 threshold. -/
def fuzzyLoop (clean : Str) : List Str → Option Str → ℚ → Option Str
  | [], best, _ => best
  | a :: rest, best, bestScoreSoFar =>
    let s := calculate_model_similarity clean a
    if bestScoreSoFar < s ∧ mkRat 7 10 ≤ s
    then fuzzyLoop clean rest (some a) s
    else fuzzyLoop clean rest best bestScoreSoFar

/-- Source `find_best_model_match` (app.py lines 36-83): falsy inputs give
no match; the cleaned id short-circuits on exact membership; otherwise the
scoring loop runs with initial best score 0. -/
def find_best_model_match (requested_model : Str) (available_models : List Str) :
    Option Str :=
  if requested_model = [] ∨ available_models = [] then none
  else
    let clean := cleanRemote requested_model
    if clean ∈ available_models then some clean
    else fuzzyLoop clean available_models none 0

/-- Maximum of a list of scores with floor 0 (all similarity scores are
compared against the loop's initial best score 0). -/
def listMax0 (l : List ℚ) : ℚ := l.foldr max 0

/-- Best similarity score a candidate list reaches against a cleaned id. -/
def bestScore (clean : Str) (available : List Str) : ℚ :=
  listMax0 (available.map (calculate_model_similarity clean))

/-- Modelled from the spec (section 4.1 step 6): score every candidate, keep
the maximum, accept it only if the score is at least 0.70, breaking ties by
input order (first candidate at the maximum wins).  Stated from the spec's
words for comparison with the source's `find_best_model_match`. -/
def resolverSpec (clean : Str) (available : List Str) : Option Str :=
  if mkRat 7 10 ≤ bestScore clean available then
    available.find? (fun a =>
      decide (calculate_model_similarity clean a = bestScore clean available))
  else none

/-- One registry entry, with the fields of the source's model config dicts
(`MODEL_CONFIGS` entries and dynamic configs; app.py lines 200-246, 380-390). -/
structure ModelConfig where
  model : Str
  provider : Str
  priority : Int
  cost_per_1k_tokens : ℚ
  task_types : List Str
  max_tokens : Int
  dynamic : Bool
deriving DecidableEq

/-- Python `task_type in config.get("task_types", ["general"])`, where the
request's task type may be `None` (membership is then false). -/
def taskMem (task_type : Option Str) (c : ModelConfig) : Bool :=
  match task_type with
  | some s => decide (s ∈ c.task_types)
  | none => false

/-- The loop of Python `min(l, key=key)`: keep the current minimum,
replacing it only on a strictly smaller key, so the first minimum wins. -/
def minGo {α β : Type} [LinearOrder β] (key : α → β) (cur : α) : List α → α
  | [] => cur
  | y :: ys => if key y < key cur then minGo key y ys else minGo key cur ys

/-- Python `min(l, key=key)`: `none` on the empty list (where Python raises
`ValueError`), else the first element attaining the minimal key. -/
def pythonMin {α β : Type} [LinearOrder β] (key : α → β) : List α → Option α
  | [] => none
  | x :: xs => some (minGo key x xs)

/-- The auto-selection pool (app.py lines 638-645): models whose task types
contain the request's task type, falling back to the whole registry when
none match. -/
def poolOf (models : List ModelConfig) (task_type : Option Str) : List ModelConfig :=
  let suitable := models.filter (taskMem task_type)
  if suitable.isEmpty then models else suitable

/-- The strategy step of `select_optimal_model` (app.py lines 647-663):
`cost` picks the minimum cost, `performance` and anything unrecognised
(`balanced`) pick the minimum priority, `local` picks the first ollama
model in pool order, else the first pool element. -/
def applyStrategy (models : List ModelConfig) (task_type strategy : Option Str) :
    Option ModelConfig :=
  if strategy = some (str "cost") then
    pythonMin (fun x => x.cost_per_1k_tokens) (poolOf models task_type)
  else if strategy = some (str "performance") then
    pythonMin (fun x => x.priority) (poolOf models task_type)
  else if strategy = some (str "local") then
    match (poolOf models task_type).filter (fun m => decide (m.provider = str "ollama")) with
    | x :: _ => some x
    | [] => (poolOf models task_type).head?
  else
    pythonMin (fun x => x.priority) (poolOf models task_type)

/-- Source `select_optimal_model` (app.py lines 598-663): a truthy requested
id is first matched exactly (first registry entry with equal id), then
fuzzily via `find_best_model_match` (a truthy fuzzy match is looked up in
the registry); otherwise auto-selection by task type and strategy. -/
def select_optimal_model (models : List ModelConfig) (task_type strategy : Option Str)
    (requested_model : Option Str) : Option ModelConfig :=
  match requested_model with
  | some r =>
    if r ≠ [] then
      match models.find? (fun c => decide (c.model = r)) with
      | some c => some c
      | none =>
        match find_best_model_match r (models.map (fun c => c.model)) with
        | some fm =>
          if fm ≠ [] then
            match models.find? (fun c => decide (c.model = fm)) with
            | some c => some c
            | none => applyStrategy models task_type strategy
          else applyStrategy models task_type strategy
        | none => applyStrategy models task_type strategy
    else applyStrategy models task_type strategy
  | none => applyStrategy models task_type strategy

/-- Source `refresh_models_from_redis` (app.py lines 580-596): the new
snapshot is the non-dynamic entries of the current snapshot followed by the
dynamic models loaded from the store, with no deduplication. -/
def refresh_models_from_redis (current dynamic_loaded : List ModelConfig) :
    List ModelConfig :=
  current.filter (fun m => !m.dynamic) ++ dynamic_loaded

/-- The outbound call parameters built by `call_litellm` that the claims
concern (app.py lines 713-773): the `provider/model` identifier and the
clamped `max_tokens`.  A falsy requested `max_tokens` (absent or 0) takes
the default branch `min(4096, model_limit)`. -/
structure LiteLLMCall where
  model : Str
  max_tokens : Int
deriving DecidableEq

/-- Source `call_litellm`, restricted to the outbound parameters modelled by
`LiteLLMCall` (app.py lines 727 and 765-773). -/
def call_litellm (selected : ModelConfig) (request_max_tokens : Option Int) :
    LiteLLMCall :=
  { model := selected.provider ++ str "/" ++ selected.model
    max_tokens :=
      match request_max_tokens with
      | some m =>
        if m ≠ 0 then min m selected.max_tokens
        else min 4096 selected.max_tokens
      | none => min 4096 selected.max_tokens }

/-- Legacy variant `src/litellm-service/app.py` lines 179-181:
`max_tokens = request.max_tokens or min(selected_model["max_tokens"], 2000)`
— a truthy requested value is passed through unclamped. -/
def legacy_call_litellm_max_tokens (request_max_tokens : Option Int)
    (selected : ModelConfig) : Int :=
  match request_max_tokens with
  | some m => if m ≠ 0 then m else min selected.max_tokens 2000
  | none => min selected.max_tokens 2000

/-- Modelled from the spec (section 4.3): clamp `max_tokens` to
`min(requested or default 4096, descriptor.maxTokens)`. -/
def spec_max_tokens (request_max_tokens : Option Int) (ceiling : Int) : Int :=
  min (request_max_tokens.getD 4096) ceiling

/-- Outcome of one `try_with_fallback` call: the successful model's id, or
the raised `All LLM providers failed` error message. -/
inductive FallbackOutcome where
  | ok (model : Str)
  | error (msg : Str)
deriving DecidableEq

/-- The retry loop of `try_with_fallback` (app.py lines 876-903) with the
per-model outcome injected: `errOf id = some e` means a call to `id` fails
with message `e`, `none` means it succeeds.  The argument counts remaining
attempts; on failure with attempts left, the next model is the minimum
priority among the registry entries whose id differs from the current one
and whose task types contain the request's task type.  Returns the sequence
of attempted ids and the result. -/
def fallbackGo (models : List ModelConfig) (task_type : Option Str)
    (errOf : Str → Option Str) : Nat → ModelConfig → List Str × FallbackOutcome
  | 0, _ => ([], FallbackOutcome.error [])
  | fuel + 1, sel =>
    match errOf sel.model with
    | none => ([sel.model], FallbackOutcome.ok sel.model)
    | some e =>
      if fuel = 0 then
        ([sel.model], FallbackOutcome.error (str "All LLM providers failed. Last error: " ++ e))
      else
        let remaining := models.filter
          (fun m => decide (m.model ≠ sel.model) && taskMem task_type m)
        match pythonMin (fun x => x.priority) remaining with
        | some next =>
          let r := fallbackGo models task_type errOf fuel next
          (sel.model :: r.1, r.2)
        | none =>
          ([sel.model], FallbackOutcome.error (str "All LLM providers failed. Last error: " ++ e))

/-- Source `try_with_fallback` (app.py lines 867-903): select once, then run
up to `max_retries + 1` attempts.  Returns the attempted ids and either the
successful model or the `All LLM providers failed` error carrying the last
error's message.  (An empty registry, which the HTTP layer rejects before
this point, yields no attempts.) -/
def try_with_fallback (models : List ModelConfig) (task_type strategy requested : Option Str)
    (errOf : Str → Option Str) (max_retries : Nat) : List Str × FallbackOutcome :=
  match select_optimal_model models task_type strategy requested with
  | some sel => fallbackGo models task_type errOf (max_retries + 1) sel
  | none => ([], FallbackOutcome.error [])

/-- Adjacent attempts in a list are pairwise distinct. -/
def consecDistinct : List Str → Bool
  | [] => true
  | [_] => true
  | a :: b :: rest => decide (a ≠ b) && consecDistinct (b :: rest)

/-- Example registry for concrete instances: three static descriptors for
task type "general" with priorities 1, 2, 3 (the shape of `MODEL_CONFIGS`). -/
def exampleA : ModelConfig :=
  ⟨str "model-a", str "openai", 1, 0, [str "general"], 1000, false⟩

/-- Second example descriptor, priority 2. -/
def exampleB : ModelConfig :=
  ⟨str "model-b", str "anthropic", 2, 0, [str "general"], 1000, false⟩

/-- Third example descriptor, priority 3. -/
def exampleC : ModelConfig :=
  ⟨str "model-c", str "google", 3, 0, [str "general"], 1000, false⟩

/-- Cost-strategy example of spec property P7: cost 0.5. -/
def costA : ModelConfig :=
  ⟨str "m1", str "openai", 1, mkRat 5 10, [str "general"], 1000, false⟩

/-- Cost-strategy example of spec property P7: cost 0.15 (the minimum). -/
def costB : ModelConfig :=
  ⟨str "m2", str "anthropic", 2, mkRat 15 100, [str "general"], 1000, false⟩

/-- Cost-strategy example of spec property P7: cost 0.27. -/
def costC : ModelConfig :=
  ⟨str "m3", str "groq", 3, mkRat 27 100, [str "general"], 1000, false⟩

/-- Cost-tie example: same cost as `tieY` but higher (worse) priority, listed
first. -/
def tieX : ModelConfig :=
  ⟨str "x", str "openai", 5, mkRat 1 10, [str "general"], 1000, false⟩

/-- Cost-tie example: same cost as `tieX`, lowest priority, listed second. -/
def tieY : ModelConfig :=
  ⟨str "y", str "openai", 1, mkRat 1 10, [str "general"], 1000, false⟩

/-- Registry entry whose id is the empty string. -/
def emptyIdD : ModelConfig :=
  ⟨[], str "openai", 5, 0, [str "general"], 1000, false⟩

/-- Registry entry with id "y" and the best priority. -/
def otherD : ModelConfig :=
  ⟨str "y", str "openai", 1, 0, [str "general"], 1000, false⟩

/-- Static registry entry with id "m". -/
def staticM : ModelConfig :=
  ⟨str "m", str "openai", 1, 0, [str "general"], 1000, false⟩

/-- Dynamic registry entry with the same id "m" as `staticM`. -/
def dynM : ModelConfig :=
  ⟨str "m", str "custom", 9, 0, [str "general"], 1000, true⟩

/-- Descriptor with a `max_tokens` ceiling of 4096. -/
def clampD : ModelConfig :=
  ⟨str "d", str "openai", 1, 0, [str "general"], 4096, false⟩

/-! ## Basic lemmas -/

theorem qmul_eq (a b : ℚ) : qmul a b = a * b := by
  rw [Rat.mul_def]
  unfold qmul mkRat
  rw [dif_neg (Nat.mul_ne_zero a.den_nz b.den_nz)]

theorem qadd_eq (a b : ℚ) : qadd a b = a + b := (Rat.add_def' a b).symm

theorem char_toNat_ofNat_lower (m : Nat) (h1 : 97 ≤ m) (h2 : m ≤ 122) :
    (Char.ofNat m).toNat = m := by
  interval_cases m <;> decide

theorem char_toLower_idem (c : Char) : c.toLower.toLower = c.toLower := by
  simp only [Char.toLower]
  by_cases h : c.toNat ≥ 65 ∧ c.toNat ≤ 90
  · rw [if_pos h]
    have hofn : (Char.ofNat (c.toNat + 32)).toNat = c.toNat + 32 :=
      char_toNat_ofNat_lower _ (by omega) (by omega)
    rw [if_neg (by rw [hofn]; omega)]
  · rw [if_neg h, if_neg h]

theorem pyLower_idem (s : Str) : pyLower (pyLower s) = pyLower s := by
  unfold pyLower
  rw [List.map_map]
  exact List.map_congr_left (fun c _ => char_toLower_idem c)

theorem listMax0_cons (x : ℚ) (l : List ℚ) : listMax0 (x :: l) = max x (listMax0 l) := rfl

theorem find?_score_congr (clean : Str) (l : List Str) {x y : ℚ} (h : x = y) :
    l.find? (fun a => decide (calculate_model_similarity clean a = x)) =
      l.find? (fun a => decide (calculate_model_similarity clean a = y)) := by
  rw [h]

theorem fuzzyLoop_some (clean : Str) (l : List Str) : ∀ (b : Str) (bs : ℚ),
    mkRat 7 10 ≤ bs →
    fuzzyLoop clean l (some b) bs =
      (if bs < listMax0 (l.map (calculate_model_similarity clean))
       then l.find? (fun a =>
         decide (calculate_model_similarity clean a =
           listMax0 (l.map (calculate_model_similarity clean))))
       else some b) := by
  induction l with
  | nil =>
    intro b bs hbs
    have h0 : ¬ bs < listMax0 ([].map (calculate_model_similarity clean)) := by
      simp only [List.map_nil, listMax0, List.foldr_nil]
      have : (0:ℚ) < mkRat 7 10 := by decide
      exact not_lt.mpr (le_trans (le_of_lt this) hbs)
    rw [if_neg h0]
    rfl
  | cons a rest ih =>
    intro b bs hbs
    simp only [fuzzyLoop, List.map_cons, listMax0_cons]
    by_cases hs : bs < calculate_model_similarity clean a
    · have h7s : mkRat 7 10 ≤ calculate_model_similarity clean a :=
        le_trans hbs (le_of_lt hs)
      rw [if_pos ⟨hs, h7s⟩, ih a _ h7s]
      have hcond : bs < max (calculate_model_similarity clean a)
          (listMax0 (rest.map (calculate_model_similarity clean))) :=
        lt_of_lt_of_le hs (le_max_left _ _)
      rw [if_pos hcond]
      by_cases hM : calculate_model_similarity clean a <
          listMax0 (rest.map (calculate_model_similarity clean))
      · have hmax : max (calculate_model_similarity clean a)
            (listMax0 (rest.map (calculate_model_similarity clean))) =
            listMax0 (rest.map (calculate_model_similarity clean)) :=
          max_eq_right (le_of_lt hM)
        rw [if_pos hM, find?_score_congr clean (a :: rest) hmax,
          List.find?_cons_of_neg _ (by simpa using ne_of_lt hM)]
      · have hmax : max (calculate_model_similarity clean a)
            (listMax0 (rest.map (calculate_model_similarity clean))) =
            calculate_model_similarity clean a :=
          max_eq_left (le_of_not_lt hM)
        rw [if_neg hM, find?_score_congr clean (a :: rest) hmax,
          List.find?_cons_of_pos _ (by simp)]
    · rw [if_neg (fun hc => hs hc.1), ih b bs hbs]
      have hs' : calculate_model_similarity clean a ≤ bs := le_of_not_lt hs
      by_cases hMr : bs < listMax0 (rest.map (calculate_model_similarity clean))
      · have hcond : bs < max (calculate_model_similarity clean a)
            (listMax0 (rest.map (calculate_model_similarity clean))) :=
          lt_of_lt_of_le hMr (le_max_right _ _)
        have hmax : max (calculate_model_similarity clean a)
            (listMax0 (rest.map (calculate_model_similarity clean))) =
            listMax0 (rest.map (calculate_model_similarity clean)) :=
          max_eq_right (le_trans hs' (le_of_lt hMr))
        rw [if_pos hMr, if_pos hcond, find?_score_congr clean (a :: rest) hmax,
          List.find?_cons_of_neg _ (by simpa using ne_of_lt (lt_of_le_of_lt hs' hMr))]
      · have hcond : ¬ bs < max (calculate_model_similarity clean a)
            (listMax0 (rest.map (calculate_model_similarity clean))) := by
          rw [lt_max_iff]
          exact fun h => h.elim hs hMr
        rw [if_neg hMr, if_neg hcond]

theorem fuzzyLoop_none (clean : Str) (l : List Str) :
    fuzzyLoop clean l none 0 =
      (if mkRat 7 10 ≤ listMax0 (l.map (calculate_model_similarity clean))
       then l.find? (fun a =>
         decide (calculate_model_similarity clean a =
           listMax0 (l.map (calculate_model_similarity clean))))
       else none) := by
  induction l with
  | nil =>
    rw [if_neg (show ¬ mkRat 7 10 ≤ listMax0 ([].map (calculate_model_similarity clean)) by
      simp only [List.map_nil]
      decide)]
    rfl
  | cons a rest ih =>
    simp only [fuzzyLoop, List.map_cons, listMax0_cons]
    by_cases h7 : mkRat 7 10 ≤ calculate_model_similarity clean a
    · have h0 : (0:ℚ) < calculate_model_similarity clean a :=
        lt_of_lt_of_le (by decide : (0:ℚ) < mkRat 7 10) h7
      rw [if_pos ⟨h0, h7⟩, fuzzyLoop_some clean rest a _ h7]
      have hM : mkRat 7 10 ≤ max (calculate_model_similarity clean a)
          (listMax0 (rest.map (calculate_model_similarity clean))) :=
        le_trans h7 (le_max_left _ _)
      rw [if_pos hM]
      by_cases hMr : calculate_model_similarity clean a <
          listMax0 (rest.map (calculate_model_similarity clean))
      · have hmax : max (calculate_model_similarity clean a)
            (listMax0 (rest.map (calculate_model_similarity clean))) =
            listMax0 (rest.map (calculate_model_similarity clean)) :=
          max_eq_right (le_of_lt hMr)
        rw [if_pos hMr, find?_score_congr clean (a :: rest) hmax,
          List.find?_cons_of_neg _ (by simpa using ne_of_lt hMr)]
      · have hmax : max (calculate_model_similarity clean a)
            (listMax0 (rest.map (calculate_model_similarity clean))) =
            calculate_model_similarity clean a :=
          max_eq_left (le_of_not_lt hMr)
        rw [if_neg hMr, find?_score_congr clean (a :: rest) hmax,
          List.find?_cons_of_pos _ (by simp)]
    · rw [if_neg (fun hc => h7 hc.2), ih]
      by_cases hMr : mkRat 7 10 ≤ listMax0 (rest.map (calculate_model_similarity clean))
      · have h7M : mkRat 7 10 ≤ max (calculate_model_similarity clean a)
            (listMax0 (rest.map (calculate_model_similarity clean))) :=
          le_trans hMr (le_max_right _ _)
        have hsMr : calculate_model_similarity clean a <
            listMax0 (rest.map (calculate_model_similarity clean)) :=
          lt_of_lt_of_le (lt_of_not_le h7) hMr
        have hmax : max (calculate_model_similarity clean a)
            (listMax0 (rest.map (calculate_model_similarity clean))) =
            listMax0 (rest.map (calculate_model_similarity clean)) :=
          max_eq_right (le_of_lt hsMr)
        rw [if_pos hMr, if_pos h7M, find?_score_congr clean (a :: rest) hmax,
          List.find?_cons_of_neg _ (by simpa using ne_of_lt hsMr)]
      · have hcond : ¬ mkRat 7 10 ≤ max (calculate_model_similarity clean a)
            (listMax0 (rest.map (calculate_model_similarity clean))) := by
          rw [le_max_iff]
          exact fun h => h.elim h7 hMr
        rw [if_neg hMr, if_neg hcond]

theorem find_best_eq_resolverSpec (requested : Str) (available : List Str)
    (hreq : requested ≠ []) (hclean : cleanRemote requested ∉ available) :
    find_best_model_match requested available =
      resolverSpec (cleanRemote requested) available := by
  unfold find_best_model_match resolverSpec bestScore
  cases available with
  | nil =>
    rw [if_pos (Or.inr rfl),
      if_neg (show ¬ mkRat 7 10 ≤
          listMax0 ([].map (calculate_model_similarity (cleanRemote requested))) by
        simp only [List.map_nil]
        decide)]
  | cons a rest =>
    rw [if_neg (by simp [hreq]), if_neg hclean]
    exact fuzzyLoop_none _ _

theorem minGo_mem {α β : Type} [LinearOrder β] (key : α → β) :
    ∀ (l : List α) (cur : α), minGo key cur l ∈ cur :: l := by
  intro l
  induction l with
  | nil => intro cur; simp [minGo]
  | cons y ys ih =>
    intro cur
    simp only [minGo]
    by_cases h : key y < key cur
    · rw [if_pos h]
      exact List.mem_cons_of_mem cur (ih y)
    · rw [if_neg h]
      rcases List.mem_cons.mp (ih cur) with h1 | h1
      · rw [h1]; exact List.mem_cons_self _ _
      · exact List.mem_cons_of_mem cur (List.mem_cons_of_mem y h1)

theorem minGo_spec {α β : Type} [LinearOrder β] (key : α → β) :
    ∀ (l : List α) (cur : α),
      ∃ l1 l2, cur :: l = l1 ++ minGo key cur l :: l2 ∧
        (∀ d ∈ l1, key (minGo key cur l) < key d) ∧
        (∀ d ∈ cur :: l, key (minGo key cur l) ≤ key d) := by
  intro l
  induction l with
  | nil =>
    intro cur
    exact ⟨[], [], rfl, by simp, by simp [minGo]⟩
  | cons y ys ih =>
    intro cur
    simp only [minGo]
    by_cases h : key y < key cur
    · rw [if_pos h]
      obtain ⟨l1, l2, heq, hlt, hle⟩ := ih y
      refine ⟨cur :: l1, l2, ?_, ?_, ?_⟩
      · rw [List.cons_append, ← heq]
      · intro d hd
        rcases List.mem_cons.mp hd with rfl | hd1
        · exact lt_of_le_of_lt (hle y (List.mem_cons_self y ys)) h
        · exact hlt d hd1
      · intro d hd
        rcases List.mem_cons.mp hd with rfl | hd1
        · exact le_of_lt (lt_of_le_of_lt (hle y (List.mem_cons_self y ys)) h)
        · exact hle d hd1
    · rw [if_neg h]
      have hcy : key cur ≤ key y := le_of_not_lt h
      obtain ⟨l1, l2, heq, hlt, hle⟩ := ih cur
      cases l1 with
      | nil =>
        have hm : minGo key cur ys = cur := by
          simp only [List.nil_append] at heq
          exact (List.cons_eq_cons.mp heq).1.symm
        rw [hm] at hle ⊢
        refine ⟨[], y :: ys, rfl, by simp, ?_⟩
        intro d hd
        rcases List.mem_cons.mp hd with rfl | hd1
        · exact le_refl _
        · rcases List.mem_cons.mp hd1 with rfl | hd2
          · exact hcy
          · exact hle d (List.mem_cons_of_mem cur hd2)
      | cons c l1' =>
        simp only [List.cons_append] at heq
        have hc1 : c = cur := (List.cons_eq_cons.mp heq).1.symm
        have hc2 : ys = l1' ++ minGo key cur ys :: l2 := (List.cons_eq_cons.mp heq).2
        have hcur_lt : key (minGo key cur ys) < key cur := by
          have := hlt c (List.mem_cons_self c l1')
          rw [hc1] at this
          exact this
        refine ⟨cur :: y :: l1', l2, ?_, ?_, ?_⟩
        · simp only [List.cons_append]
          rw [← hc2]
        · intro d hd
          rcases List.mem_cons.mp hd with rfl | hd1
          · exact hcur_lt
          · rcases List.mem_cons.mp hd1 with rfl | hd2
            · exact lt_of_lt_of_le hcur_lt hcy
            · have : d ∈ c :: l1' := by rw [hc1]; exact List.mem_cons_of_mem cur hd2
              exact hlt d this
        · intro d hd
          rcases List.mem_cons.mp hd with rfl | hd1
          · exact hle _ (List.mem_cons_self _ _)
          · rcases List.mem_cons.mp hd1 with rfl | hd2
            · exact le_of_lt (lt_of_lt_of_le hcur_lt hcy)
            · exact hle d (List.mem_cons_of_mem cur hd2)

theorem pythonMin_spec {α β : Type} [LinearOrder β] (key : α → β) (l : List α)
    (h : l ≠ []) :
    ∃ c, pythonMin key l = some c ∧
      (∃ l1 l2, l = l1 ++ c :: l2 ∧ (∀ d ∈ l1, key c < key d)) ∧
      (∀ d ∈ l, key c ≤ key d) := by
  cases l with
  | nil => exact absurd rfl h
  | cons x xs =>
    obtain ⟨l1, l2, heq, hlt, hle⟩ := minGo_spec key xs x
    exact ⟨minGo key x xs, rfl, ⟨l1, l2, heq, hlt⟩, hle⟩

theorem pythonMin_mem {α β : Type} [LinearOrder β] (key : α → β) (l : List α)
    (c : α) (h : pythonMin key l = some c) : c ∈ l := by
  cases l with
  | nil => cases h
  | cons x xs =>
    have : minGo key x xs = c := Option.some_injective _ h
    exact this ▸ minGo_mem key xs x

theorem pythonMin_isSome {α β : Type} [LinearOrder β] (key : α → β) (l : List α)
    (h : l ≠ []) : (pythonMin key l).isSome := by
  cases l with
  | nil => exact absurd rfl h
  | cons x xs => rfl

theorem poolOf_ne_nil (models : List ModelConfig) (task_type : Option Str)
    (h : models ≠ []) : poolOf models task_type ≠ [] := by
  unfold poolOf
  by_cases he : (models.filter (taskMem task_type)).isEmpty
  · rw [if_pos he]; exact h
  · rw [if_neg he]
    intro hc
    exact he (by rw [hc]; rfl)

theorem poolOf_subset (models : List ModelConfig) (task_type : Option Str) :
    ∀ c ∈ poolOf models task_type, c ∈ models := by
  intro c hc
  unfold poolOf at hc
  by_cases he : (models.filter (taskMem task_type)).isEmpty
  · rwa [if_pos he] at hc
  · rw [if_neg he] at hc
    exact List.mem_of_mem_filter hc

theorem applyStrategy_isSome (models : List ModelConfig) (task_type strategy : Option Str)
    (h : models ≠ []) : (applyStrategy models task_type strategy).isSome := by
  have hp : poolOf models task_type ≠ [] := poolOf_ne_nil models task_type h
  unfold applyStrategy
  split_ifs
  · exact pythonMin_isSome _ _ hp
  · exact pythonMin_isSome _ _ hp
  · cases hf : (poolOf models task_type).filter (fun m => decide (m.provider = str "ollama")) with
    | cons x xs => simp [hf]
    | nil =>
      simp only [hf]
      cases hq : poolOf models task_type with
      | nil => exact absurd hq hp
      | cons y ys => simp [hq]
  · exact pythonMin_isSome _ _ hp

theorem applyStrategy_mem (models : List ModelConfig) (task_type strategy : Option Str)
    (c : ModelConfig) (h : applyStrategy models task_type strategy = some c) :
    c ∈ models := by
  unfold applyStrategy at h
  split_ifs at h
  · exact poolOf_subset models task_type c (pythonMin_mem _ _ _ h)
  · exact poolOf_subset models task_type c (pythonMin_mem _ _ _ h)
  · cases hf : (poolOf models task_type).filter (fun m => decide (m.provider = str "ollama")) with
    | cons x xs =>
      rw [hf] at h
      have hx : c = x := by cases h; rfl
      have : x ∈ poolOf models task_type := List.mem_of_mem_filter (hf ▸ List.mem_cons_self x xs)
      exact poolOf_subset models task_type c (hx ▸ this)
    | nil =>
      rw [hf] at h
      cases hq : poolOf models task_type with
      | nil => rw [hq] at h; cases h
      | cons y ys =>
        rw [hq] at h
        have hy : c = y := by cases h; rfl
        exact poolOf_subset models task_type c (hy ▸ (hq ▸ List.mem_cons_self y ys))
  · exact poolOf_subset models task_type c (pythonMin_mem _ _ _ h)

theorem select_isSome (models : List ModelConfig) (task_type strategy requested : Option Str)
    (h : models ≠ []) : (select_optimal_model models task_type strategy requested).isSome := by
  cases requested with
  | none =>
    simp only [select_optimal_model]
    exact applyStrategy_isSome models task_type strategy h
  | some r =>
    simp only [select_optimal_model]
    by_cases hr : r ≠ []
    · rw [if_pos hr]
      cases hf : models.find? (fun c => decide (c.model = r)) with
      | some c => rfl
      | none =>
        cases hfm : find_best_model_match r (models.map (fun c => c.model)) with
        | none => exact applyStrategy_isSome models task_type strategy h
        | some fm =>
          dsimp only
          by_cases hfm2 : fm ≠ []
          · rw [if_pos hfm2]
            cases hf2 : models.find? (fun c => decide (c.model = fm)) with
            | some c => rfl
            | none => exact applyStrategy_isSome models task_type strategy h
          · rw [if_neg hfm2]
            exact applyStrategy_isSome models task_type strategy h
    · rw [if_neg hr]
      exact applyStrategy_isSome models task_type strategy h

theorem select_mem (models : List ModelConfig) (task_type strategy requested : Option Str)
    (c : ModelConfig) (h : select_optimal_model models task_type strategy requested = some c) :
    c ∈ models := by
  cases requested with
  | none =>
    simp only [select_optimal_model] at h
    exact applyStrategy_mem models task_type strategy c h
  | some r =>
    simp only [select_optimal_model] at h
    by_cases hr : r ≠ []
    · rw [if_pos hr] at h
      cases hf : models.find? (fun d => decide (d.model = r)) with
      | some d =>
        rw [hf] at h
        have : d = c := by cases h; rfl
        exact this ▸ List.mem_of_find?_eq_some hf
      | none =>
        rw [hf] at h
        cases hfm : find_best_model_match r (models.map (fun d => d.model)) with
        | none =>
          rw [hfm] at h
          exact applyStrategy_mem models task_type strategy c h
        | some fm =>
          rw [hfm] at h
          dsimp only at h
          by_cases hfm2 : fm ≠ []
          · rw [if_pos hfm2] at h
            cases hf2 : models.find? (fun d => decide (d.model = fm)) with
            | some d =>
              rw [hf2] at h
              have : d = c := by cases h; rfl
              exact this ▸ List.mem_of_find?_eq_some hf2
            | none =>
              rw [hf2] at h
              exact applyStrategy_mem models task_type strategy c h
          · rw [if_neg hfm2] at h
            exact applyStrategy_mem models task_type strategy c h
    · rw [if_neg hr] at h
      exact applyStrategy_mem models task_type strategy c h

theorem find?_eq_some_of_unique {α : Type} (l : List α) (p : α → Bool) (c : α)
    (hmem : c ∈ l) (hp : p c = true) (huniq : ∀ d ∈ l, p d = true → d = c) :
    l.find? p = some c := by
  induction l with
  | nil => cases hmem
  | cons x xs ih =>
    by_cases hx : p x = true
    · rw [List.find?_cons_of_pos _ hx]
      rw [huniq x (List.mem_cons_self x xs) hx]
    · rw [List.find?_cons_of_neg _ (by simp [hx])]
      have hmem' : c ∈ xs := by
        rcases List.mem_cons.mp hmem with rfl | h1
        · exact absurd hp hx
        · exact h1
      exact ih hmem' (fun d hd hpd => huniq d (List.mem_cons_of_mem x hd) hpd)

theorem mkRat_le_one_of_le (n d : Nat) (h : n ≤ d) : mkRat n d ≤ 1 := by
  rcases Nat.eq_zero_or_pos d with h0 | hpos
  · rw [h0, Rat.mkRat_zero]; norm_num
  · rw [Rat.mkRat_eq_div, div_le_one (by exact_mod_cast hpos)]
    exact_mod_cast h

theorem calculate_string_similarity_le_one (a b : Str) :
    calculate_string_similarity a b ≤ 1 := by
  simp only [calculate_string_similarity]
  split_ifs with h1 h2 h3 h4
  · exact le_refl 1
  · norm_num
  · exact mkRat_le_one_of_le _ _ min_le_max
  · norm_num
  · exact mkRat_le_one_of_le _ _ (Finset.card_le_card Finset.inter_subset_union)

theorem calculate_model_similarity_le_one (a b : Str) :
    calculate_model_similarity a b ≤ 1 := by
  have c12 : (mkRat 1 2 : ℚ) = 1/2 := by rw [Rat.mkRat_eq_div]; norm_num
  have c710 : (mkRat 7 10 : ℚ) = 7/10 := by rw [Rat.mkRat_eq_div]; norm_num
  have c310 : (mkRat 3 10 : ℚ) = 3/10 := by rw [Rat.mkRat_eq_div]; norm_num
  simp only [calculate_model_similarity]
  split_ifs with h1 h2 h3
  · exact le_refl 1
  · rw [qmul_eq, c12]
    have hb := calculate_string_similarity_le_one
      (extract_model_parts (pyLower a)).1 (extract_model_parts (pyLower b)).1
    linarith
  · rw [qadd_eq, qmul_eq, qmul_eq, c710, c310]
    have hb := calculate_string_similarity_le_one
      (extract_model_parts (pyLower a)).1 (extract_model_parts (pyLower b)).1
    linarith
  · rw [qadd_eq, qmul_eq, qmul_eq, c710, c310]
    have hb := calculate_string_similarity_le_one
      (extract_model_parts (pyLower a)).1 (extract_model_parts (pyLower b)).1
    linarith

theorem le_listMax0_of_mem {l : List ℚ} {x : ℚ} (h : x ∈ l) : x ≤ listMax0 l := by
  induction l with
  | nil => cases h
  | cons y ys ih =>
    rw [listMax0_cons]
    rcases List.mem_cons.mp h with rfl | h1
    · exact le_max_left _ _
    · exact le_trans (ih h1) (le_max_right _ _)

theorem listMax0_le_one {l : List ℚ} (h : ∀ x ∈ l, x ≤ 1) : listMax0 l ≤ 1 := by
  induction l with
  | nil => norm_num [listMax0]
  | cons y ys ih =>
    rw [listMax0_cons]
    exact max_le (h y (List.mem_cons_self y ys))
      (ih (fun x hx => h x (List.mem_cons_of_mem y hx)))

theorem consecDistinct_cons_cons (a b : Str) (l : List Str) :
    consecDistinct (a :: b :: l) = (decide (a ≠ b) && consecDistinct (b :: l)) := rfl

theorem fallbackGo_eq (models : List ModelConfig) (task_type : Option Str)
    (errOf : Str → Option Str) (fuel : Nat) (sel : ModelConfig) :
    fallbackGo models task_type errOf (fuel + 1) sel =
      (match errOf sel.model with
       | none => ([sel.model], FallbackOutcome.ok sel.model)
       | some e =>
         if fuel = 0 then
           ([sel.model], FallbackOutcome.error (str "All LLM providers failed. Last error: " ++ e))
         else
           match pythonMin (fun x => x.priority)
               (models.filter (fun m => decide (m.model ≠ sel.model) && taskMem task_type m)) with
           | some next =>
             (sel.model :: (fallbackGo models task_type errOf fuel next).1,
              (fallbackGo models task_type errOf fuel next).2)
           | none =>
             ([sel.model], FallbackOutcome.error (str "All LLM providers failed. Last error: " ++ e))) := rfl

theorem fallbackGo_spec (models : List ModelConfig) (task_type : Option Str)
    (errOf : Str → Option Str) (hall : ∀ m ∈ models, (errOf m.model).isSome) :
    ∀ (fuel : Nat) (sel : ModelConfig), sel ∈ models →
      ∃ attempts e last,
        fallbackGo models task_type errOf (fuel + 1) sel =
          (attempts, FallbackOutcome.error (str "All LLM providers failed. Last error: " ++ e)) ∧
        attempts.head? = some sel.model ∧
        attempts.length ≤ fuel + 1 ∧
        consecDistinct attempts = true ∧
        (∀ a ∈ attempts, a ∈ models.map (fun m => m.model)) ∧
        attempts.getLast? = some last ∧
        errOf last = some e := by
  intro fuel
  induction fuel with
  | zero =>
    intro sel hsel
    obtain ⟨e, he⟩ := Option.isSome_iff_exists.mp (hall sel hsel)
    refine ⟨[sel.model], e, sel.model, ?_, rfl, by simp, rfl, ?_, rfl, he⟩
    · rw [fallbackGo_eq, he]
      exact rfl
    · intro a ha
      have : a = sel.model := by simpa using ha
      rw [this]
      exact List.mem_map_of_mem _ hsel
  | succ fuel ih =>
    intro sel hsel
    obtain ⟨e, he⟩ := Option.isSome_iff_exists.mp (hall sel hsel)
    cases hmin : pythonMin (fun x => x.priority)
        (models.filter (fun m => decide (m.model ≠ sel.model) && taskMem task_type m)) with
    | none =>
      refine ⟨[sel.model], e, sel.model, ?_, rfl, by simp, rfl, ?_, rfl, he⟩
      · rw [fallbackGo_eq, he]
        dsimp only
        rw [if_neg (Nat.succ_ne_zero fuel), hmin]
      · intro a ha
        have : a = sel.model := by simpa using ha
        rw [this]
        exact List.mem_map_of_mem _ hsel
    | some next =>
      have hnext_filter := pythonMin_mem _ _ _ hmin
      have hnext_models : next ∈ models := List.mem_of_mem_filter hnext_filter
      have hnext_ne : next.model ≠ sel.model := by
        have := List.of_mem_filter hnext_filter
        simp only [Bool.and_eq_true, decide_eq_true_eq] at this
        exact this.1
      obtain ⟨tr, e', last', htr_eq, htr_head, htr_len, htr_cd, htr_mem, htr_last, htr_err⟩ :=
        ih next hnext_models
      refine ⟨sel.model :: tr, e', last', ?_, rfl, ?_, ?_, ?_, ?_, htr_err⟩
      · rw [fallbackGo_eq, he]
        dsimp only
        rw [if_neg (Nat.succ_ne_zero fuel), hmin]
        dsimp only
        rw [htr_eq]
      · simp only [List.length_cons]
        omega
      · cases tr with
        | nil => cases htr_head
        | cons t ts =>
          have ht : t = next.model := by simpa using htr_head
          rw [consecDistinct_cons_cons, htr_cd, ht, Bool.and_true, decide_eq_true_eq]
          exact fun hc => hnext_ne hc.symm
      · intro a ha
        rcases List.mem_cons.mp ha with rfl | h1
        · exact List.mem_map_of_mem _ hsel
        · exact htr_mem a h1
      · cases tr with
        | nil => cases htr_head
        | cons t ts =>
          rw [List.getLast?_cons_cons]
          exact htr_last

/-! ## Claim theorems -/

/-- Claim C1 (counterexample): three descriptors with priorities 1, 2, 3, all
eligible for task type "general" and all configured to fail, with
`max_retries = N - 1 = 2`, are attempted in the order
model-a, model-b, model-a — the reselection excludes only the current
descriptor, so the attempts repeat model-a, reach only 2 distinct
descriptors, and never try model-c, contradicting the claim that exactly N
distinct descriptors are attempted with no repetition. -/
theorem C1_counterexample :
    try_with_fallback [exampleA, exampleB, exampleC] (some (str "general")) none none
        (fun _ => some (str "boom")) 2 =
      ([str "model-a", str "model-b", str "model-a"],
       FallbackOutcome.error (str "All LLM providers failed. Last error: boom")) ∧
    ([str "model-a", str "model-b", str "model-a"].dedup).length = 2 ∧
    str "model-c" ∉ [str "model-a", str "model-b", str "model-a"] :=
  ⟨by decide, by decide, by decide⟩

/-- Claim C1 (amended): within one `try_with_fallback` call whose descriptors
all fail, each retry is made against a descriptor distinct from the
immediately preceding attempt (only the current descriptor is excluded from
reselection, so attempts may revisit an earlier descriptor); at most
`max_retries + 1` attempts are made, every attempted id belongs to the
registry, and the call ends with the `All LLM providers failed` error
carrying the message of the last attempt's error. -/
theorem C1_fallback_amended (models : List ModelConfig)
    (task_type strategy requested : Option Str) (errOf : Str → Option Str) (k : Nat)
    (hne : models ≠ []) (hall : ∀ m ∈ models, (errOf m.model).isSome) :
    ∃ attempts e last,
      try_with_fallback models task_type strategy requested errOf k =
        (attempts, FallbackOutcome.error (str "All LLM providers failed. Last error: " ++ e)) ∧
      attempts ≠ [] ∧
      attempts.length ≤ k + 1 ∧
      consecDistinct attempts = true ∧
      (∀ a ∈ attempts, a ∈ models.map (fun m => m.model)) ∧
      attempts.getLast? = some last ∧
      errOf last = some e := by
  obtain ⟨sel, hsel⟩ :=
    Option.isSome_iff_exists.mp (select_isSome models task_type strategy requested hne)
  obtain ⟨attempts, e, last, heq, hhead, hlen, hcd, hmem, hlast, herr⟩ :=
    fallbackGo_spec models task_type errOf hall k sel
      (select_mem models task_type strategy requested sel hsel)
  refine ⟨attempts, e, last, ?_, ?_, hlen, hcd, hmem, hlast, herr⟩
  · unfold try_with_fallback
    rw [hsel]
    exact heq
  · intro hnil
    rw [hnil] at hhead
    cases hhead

/-- Claim C1 (witness): the amended theorem applied to the concrete
three-descriptor registry with every call failing with message "boom". -/
theorem C1_fallback_amended_witness :
    ∃ attempts e last,
      try_with_fallback [exampleA, exampleB, exampleC] (some (str "general")) none none
          (fun _ => some (str "boom")) 2 =
        (attempts, FallbackOutcome.error (str "All LLM providers failed. Last error: " ++ e)) ∧
      attempts ≠ [] ∧
      attempts.length ≤ 2 + 1 ∧
      consecDistinct attempts = true ∧
      (∀ a ∈ attempts, a ∈ [exampleA, exampleB, exampleC].map (fun m => m.model)) ∧
      attempts.getLast? = some last ∧
      (fun _ : Str => some (str "boom")) last = some e :=
  C1_fallback_amended [exampleA, exampleB, exampleC] (some (str "general")) none none
    (fun _ => some (str "boom")) 2 (by decide) (by decide)

/-- Claim C2 (code bug): the resolver's cleaning step strips the leading
`remote_<token>_` even when the token is shorter than 3 characters — on the
input "remote_ab_model" it produces "model" and the resolver then returns
the exact match "model" via the stripping path, although the spec (and the
repository's own `test_prefix_stripping.py` expectations, and
`testing/test_enhanced_fuzzy.py`, which imports a `strip_remote_prefixes`
function that `app.py` does not define) requires the string to be left
unchanged because the token "ab" has fewer than 3 characters. -/
theorem C2_prefix_strip_bug :
    cleanRemote (str "remote_ab_model") = str "model" ∧
    find_best_model_match (str "remote_ab_model") [str "model"] = some (str "model") :=
  ⟨by decide, by decide⟩

/-- Claim C3 (confirmed): whenever the base parts of the two lowercased
identifiers score strictly above 0.8 and both variant/params parts are
non-empty and different, `calculate_model_similarity` returns exactly
`baseSimilarity * 0.5`; in particular "mistral:10b" finds no match among
["mistral:22b"] because the score 0.5 is below the 0.70 threshold. -/
theorem C3_variant_penalty :
    (∀ s1 s2 : Str,
        mkRat 8 10 < calculate_string_similarity (extract_model_parts (pyLower s1)).1
            (extract_model_parts (pyLower s2)).1 →
        (extract_model_parts (pyLower s1)).2 ≠ (extract_model_parts (pyLower s2)).2 →
        (extract_model_parts (pyLower s1)).2 ≠ [] →
        (extract_model_parts (pyLower s2)).2 ≠ [] →
        calculate_model_similarity s1 s2 =
          calculate_string_similarity (extract_model_parts (pyLower s1)).1
            (extract_model_parts (pyLower s2)).1 * (1/2)) ∧
    find_best_model_match (str "mistral:10b") [str "mistral:22b"] = none := by
  constructor
  · intro s1 s2 hbase hne hp1 hp2
    have hlow : pyLower s1 ≠ pyLower s2 := fun h => hne (by rw [h])
    simp only [calculate_model_similarity]
    rw [if_neg hlow, if_pos ⟨hbase, hne, hp1, hp2⟩, qmul_eq,
      show (mkRat 1 2 : ℚ) = 1/2 by rw [Rat.mkRat_eq_div]; norm_num]
  · decide

/-- Claim C3 (witness): the variant-penalty rule applied to the concrete pair
"mistral:10b" and "mistral:22b". -/
theorem C3_variant_penalty_witness :
    calculate_model_similarity (str "mistral:10b") (str "mistral:22b") =
      calculate_string_similarity
        (extract_model_parts (pyLower (str "mistral:10b"))).1
        (extract_model_parts (pyLower (str "mistral:22b"))).1 * (1/2) :=
  C3_variant_penalty.1 (str "mistral:10b") (str "mistral:22b")
    (by decide) (by decide) (by decide) (by decide)

/-- Claim C4 (counterexample): against candidates ["ba", "ab"] the requested
id "ab" scores 1.0 with both candidates (the tie at the maximum accepted
score), yet the resolver returns "ab" — the exact-membership short-circuit
on the cleaned id — and not the first candidate "ba" at the maximum score,
contradicting the claimed input-order tie break for the resolver as a
whole. -/
theorem C4_counterexample :
    calculate_model_similarity (str "ab") (str "ba") = 1 ∧
    calculate_model_similarity (str "ab") (str "ab") = 1 ∧
    find_best_model_match (str "ab") [str "ba", str "ab"] = some (str "ab") :=
  ⟨by decide, by decide, by decide⟩

/-- Claim C4 (amended): when the requested id is non-empty and its cleaned
form is not itself one of the candidates (otherwise the exact-match step
returns it first, regardless of tie order), the resolver returns exactly
what the spec's acceptance rule describes: the first candidate in input
order attaining the maximum score if that maximum is at least 0.70 (so a
candidate scoring exactly 0.70 is accepted), and no match when the maximum
is strictly below 0.70. -/
theorem C4_threshold_amended (requested : Str) (available : List Str)
    (hreq : requested ≠ []) (hclean : cleanRemote requested ∉ available) :
    find_best_model_match requested available =
      resolverSpec (cleanRemote requested) available :=
  find_best_eq_resolverSpec requested available hreq hclean

/-- Claim C4 (witness): both sides of the 0.70 boundary at concrete inputs —
"abcd" scores exactly 0.70 against "abcdefg" and is accepted, while "abcde"
scores 31/45 < 0.70 against "abcdefghi" and is rejected. -/
theorem C4_threshold_amended_witness :
    find_best_model_match (str "abcd") [str "abcdefg"] =
      resolverSpec (cleanRemote (str "abcd")) [str "abcdefg"] ∧
    calculate_model_similarity (str "abcd") (str "abcdefg") = mkRat 7 10 ∧
    find_best_model_match (str "abcd") [str "abcdefg"] = some (str "abcdefg") ∧
    calculate_model_similarity (str "abcde") (str "abcdefghi") = mkRat 31 45 ∧
    find_best_model_match (str "abcde") [str "abcdefghi"] = none :=
  ⟨C4_threshold_amended (str "abcd") [str "abcdefg"] (by decide) (by decide),
   by decide, by decide, by decide, by decide⟩

/-- Claim C5 (counterexample): with a registry containing a descriptor whose
id is the empty string and the requested model id equal to that empty
string, selection does not return the case-sensitively equal descriptor:
Python's falsiness of the empty string skips the requested-model branch
entirely and auto-selection returns the other (lowest-priority) entry. -/
theorem C5_counterexample :
    emptyIdD ∈ [emptyIdD, otherD] ∧
    emptyIdD.model = [] ∧
    select_optimal_model [emptyIdD, otherD] (some (str "general")) none (some []) =
      some otherD ∧
    otherD ≠ emptyIdD :=
  ⟨by decide, by decide, by decide, by decide⟩

/-- Claim C5 (amended): for every registry containing a descriptor whose id
is case-sensitively equal to a non-empty requested id (and no other entry
shares that id), `select_optimal_model` returns that descriptor, regardless
of the task types, strategy, priorities, costs or fuzzy scores of every
other entry. -/
theorem C5_exact_match_amended (models : List ModelConfig)
    (task_type strategy : Option Str) (r : Str) (c : ModelConfig)
    (hr : r ≠ []) (hc : c ∈ models) (hcr : c.model = r)
    (huniq : ∀ d ∈ models, d.model = r → d = c) :
    select_optimal_model models task_type strategy (some r) = some c := by
  have hfind : models.find? (fun d => decide (d.model = r)) = some c :=
    find?_eq_some_of_unique models _ c hc (by simp [hcr])
      (fun d hd hpd => huniq d hd (by simpa using hpd))
  simp only [select_optimal_model]
  rw [if_pos hr, hfind]

/-- Claim C5 (witness): requesting "model-b" against a registry whose other
entry has the better priority still returns the exact-id descriptor. -/
theorem C5_exact_match_amended_witness :
    select_optimal_model [exampleA, exampleB] (some (str "general")) none
      (some (str "model-b")) = some exampleB :=
  C5_exact_match_amended [exampleA, exampleB] (some (str "general")) none
    (str "model-b") exampleB (by decide) (by decide) (by decide) (by decide)

/-- Claim C6 (counterexample): two descriptors tie at the minimum cost 0.1;
the first-listed one has priority 5 and the second priority 1, yet the cost
strategy returns the first-listed one — Python's `min` keeps the first
minimum in list order and applies no priority tie break. -/
theorem C6_counterexample :
    select_optimal_model [tieX, tieY] (some (str "general")) (some (str "cost")) none =
      some tieX ∧
    tieX.cost_per_1k_tokens = tieY.cost_per_1k_tokens ∧
    tieY.priority < tieX.priority :=
  ⟨by decide, by decide, by decide⟩

/-- Claim C6 (amended): under strategy "cost" with no requested id, selection
over a non-empty registry returns a descriptor of the auto-selection pool
with the minimum `cost_per_1k_tokens`, and among descriptors tying at that
minimum the first in pool order (not the one with the lowest priority) is
returned. -/
theorem C6_cost_strategy_amended (models : List ModelConfig) (task_type : Option Str)
    (hne : models ≠ []) :
    ∃ c, select_optimal_model models task_type (some (str "cost")) none = some c ∧
      c ∈ poolOf models task_type ∧
      (∀ d ∈ poolOf models task_type, c.cost_per_1k_tokens ≤ d.cost_per_1k_tokens) ∧
      ∃ l1 l2, poolOf models task_type = l1 ++ c :: l2 ∧
        (∀ d ∈ l1, c.cost_per_1k_tokens < d.cost_per_1k_tokens) := by
  obtain ⟨c, hmin, ⟨l1, l2, hsplit, hlt⟩, hle⟩ :=
    pythonMin_spec (fun x : ModelConfig => x.cost_per_1k_tokens)
      (poolOf models task_type) (poolOf_ne_nil models task_type hne)
  refine ⟨c, ?_, ?_, hle, l1, l2, hsplit, hlt⟩
  · simp only [select_optimal_model, applyStrategy]
    rw [if_pos trivial]
    exact hmin
  · rw [hsplit]
    exact List.mem_append_right l1 (List.mem_cons_self c l2)

/-- Claim C6 (witness): with eligible costs [0.5, 0.15, 0.27] the descriptor
costing 0.15 is selected. -/
theorem C6_cost_strategy_amended_witness :
    (∃ c, select_optimal_model [costA, costB, costC] (some (str "general"))
          (some (str "cost")) none = some c ∧
        c ∈ poolOf [costA, costB, costC] (some (str "general")) ∧
        (∀ d ∈ poolOf [costA, costB, costC] (some (str "general")),
          c.cost_per_1k_tokens ≤ d.cost_per_1k_tokens) ∧
        ∃ l1 l2, poolOf [costA, costB, costC] (some (str "general")) = l1 ++ c :: l2 ∧
          (∀ d ∈ l1, c.cost_per_1k_tokens < d.cost_per_1k_tokens)) ∧
    select_optimal_model [costA, costB, costC] (some (str "general"))
      (some (str "cost")) none = some costB :=
  ⟨C6_cost_strategy_amended [costA, costB, costC] (some (str "general")) (by decide),
   by decide⟩

/-- Claim C7 (counterexample): an explicitly requested `max_tokens = 0`
against a descriptor with ceiling 4096 produces an outbound value of 4096,
not the `min(0, 4096) = 0` the claim's formula demands — Python truthiness
treats the explicit 0 as unset. -/
theorem C7_counterexample :
    (call_litellm clampD (some 0)).max_tokens = 4096 ∧
    spec_max_tokens (some 0) clampD.max_tokens = 0 ∧
    (call_litellm clampD (some 0)).max_tokens ≠ spec_max_tokens (some 0) clampD.max_tokens :=
  ⟨by decide, by decide, by decide⟩

/-- Claim C7 (amended): in the primary service's `call_litellm`, the outbound
`max_tokens` equals `min(requested or default 4096, descriptor ceiling)`
whenever the requested value is absent or set to a nonzero value, while an
explicit 0 is treated as unset and yields `min(4096, ceiling)`; the legacy
variant (`src/litellm-service/app.py`) instead passes a nonzero requested
value through unclamped and defaults to `min(ceiling, 2000)`. -/
theorem C7_max_tokens_amended (d : ModelConfig) (m : Int) :
    (m ≠ 0 → (call_litellm d (some m)).max_tokens = spec_max_tokens (some m) d.max_tokens) ∧
    (call_litellm d none).max_tokens = spec_max_tokens none d.max_tokens ∧
    (call_litellm d (some 0)).max_tokens = min 4096 d.max_tokens ∧
    (m ≠ 0 → legacy_call_litellm_max_tokens (some m) d = m) ∧
    legacy_call_litellm_max_tokens none d = min d.max_tokens 2000 := by
  refine ⟨?_, rfl, ?_, ?_, rfl⟩
  · intro hm
    simp only [call_litellm, spec_max_tokens]
    rw [if_pos hm]
    rfl
  · simp only [call_litellm]
    rw [if_neg (by simp)]
  · intro hm
    simp only [legacy_call_litellm_max_tokens]
    rw [if_pos hm]

/-- Claim C7 (witness): requesting `max_tokens = 999999` against a descriptor
whose ceiling is 4096 produces an outbound value of exactly 4096. -/
theorem C7_max_tokens_amended_witness :
    (call_litellm clampD (some 999999)).max_tokens =
      spec_max_tokens (some 999999) clampD.max_tokens ∧
    (call_litellm clampD (some 999999)).max_tokens = 4096 :=
  ⟨(C7_max_tokens_amended clampD 999999).1 (by decide), by decide⟩

/-- Claim C8 (counterexample): refreshing a registry whose static entry has
id "m" with a dynamic store entry of the same id yields a snapshot
containing both entries — the dynamic descriptor does not overwrite the
static one and the snapshot's ids are not unique. -/
theorem C8_counterexample :
    refresh_models_from_redis [staticM] [dynM] = [staticM, dynM] ∧
    staticM.model = dynM.model ∧
    staticM ≠ dynM ∧
    ¬ ((refresh_models_from_redis [staticM] [dynM]).map (fun c => c.model)).Nodup :=
  ⟨by decide, by decide, by decide, by decide⟩

/-- Claim C8 (amended): a refreshed snapshot is the retained non-dynamic
entries followed by the loaded dynamic entries with no deduplication, so its
ids are unique exactly when the retained static ids are duplicate-free, the
dynamic ids are duplicate-free, and the two groups share no id; a dynamic
descriptor whose id equals a static descriptor's id therefore produces a
duplicated id rather than an overwrite. -/
theorem C8_refresh_nodup_amended (current dynamic_loaded : List ModelConfig) :
    ((refresh_models_from_redis current dynamic_loaded).map (fun c => c.model)).Nodup ↔
      (((current.filter (fun m => !m.dynamic)).map (fun c => c.model)).Nodup ∧
       (dynamic_loaded.map (fun c => c.model)).Nodup ∧
       ((current.filter (fun m => !m.dynamic)).map (fun c => c.model)).Disjoint
         (dynamic_loaded.map (fun c => c.model))) := by
  unfold refresh_models_from_redis
  rw [List.map_append, List.nodup_append]

/-- Claim C10 (counterexample): the pair "remote_abc_x" and "REMOTE_ABC_X"
differ only in letter case (their ASCII-lowercased forms are equal), yet the
resolver returns no match at all: the lowercase "remote_" routing marker is
stripped from the requested id before scoring, so the comparison is made
between "x" and "REMOTE_ABC_X" and scores far below the threshold. -/
theorem C10_counterexample :
    str "remote_abc_x" ≠ str "REMOTE_ABC_X" ∧
    pyLower (str "remote_abc_x") = pyLower (str "REMOTE_ABC_X") ∧
    find_best_model_match (str "remote_abc_x") [str "REMOTE_ABC_X"] = none :=
  ⟨by decide, by decide, by decide⟩

/-- Claim C10 (amended): similarity scoring is case-insensitive — every pair
scores the same as its ASCII-lowercased forms, and any pair equal up to
letter case scores exactly 1.0; moreover a non-empty requested id that is
not subject to remote-routing stripping (its cleaned form is itself) and
differs from some candidate only in letter case is always resolved to a
candidate scoring exactly 1.0. -/
theorem C10_case_insensitive_amended :
    (∀ s1 s2 : Str, calculate_model_similarity s1 s2 =
        calculate_model_similarity (pyLower s1) (pyLower s2)) ∧
    (∀ s1 s2 : Str, pyLower s1 = pyLower s2 → calculate_model_similarity s1 s2 = 1) ∧
    (∀ (r c : Str) (cs : List Str), cleanRemote r = r → r ≠ [] →
        pyLower r = pyLower c → c ∈ cs →
        ∃ m, find_best_model_match r cs = some m ∧
          calculate_model_similarity r m = 1) := by
  refine ⟨?_, ?_, ?_⟩
  · intro s1 s2
    simp only [calculate_model_similarity, pyLower_idem]
  · intro s1 s2 h
    simp only [calculate_model_similarity]
    rw [if_pos h]
  · intro r c cs hclean hr hlow hmem
    have hcs : cs ≠ [] := fun h => by rw [h] at hmem; cases hmem
    simp only [find_best_model_match]
    rw [if_neg (by simp [hr, hcs]), hclean]
    by_cases hin : r ∈ cs
    · refine ⟨r, by rw [if_pos hin], ?_⟩
      simp only [calculate_model_similarity]
      rw [if_pos trivial]
    · rw [if_neg hin, fuzzyLoop_none]
      have hsim : calculate_model_similarity r c = 1 := by
        simp only [calculate_model_similarity]
        rw [if_pos hlow]
      have hmax_ge : (1:ℚ) ≤ listMax0 (cs.map (calculate_model_similarity r)) := by
        rw [← hsim]
        exact le_listMax0_of_mem (List.mem_map_of_mem _ hmem)
      have hmax_le : listMax0 (cs.map (calculate_model_similarity r)) ≤ 1 :=
        listMax0_le_one (fun x hx => by
          obtain ⟨y, _, rfl⟩ := List.mem_map.mp hx
          exact calculate_model_similarity_le_one r y)
      have hmax : listMax0 (cs.map (calculate_model_similarity r)) = 1 :=
        le_antisymm hmax_le hmax_ge
      rw [if_pos (by rw [hmax]; decide)]
      have hexists : ∃ x ∈ cs,
          (fun a => decide (calculate_model_similarity r a =
            listMax0 (cs.map (calculate_model_similarity r)))) x = true := by
        exact ⟨c, hmem, by rw [hmax]; simpa using hsim⟩
      obtain ⟨m, hm⟩ := Option.isSome_iff_exists.mp (List.find?_isSome.mpr hexists)
      have hpm := List.find?_some hm
      simp only [hmax, decide_eq_true_eq] at hpm
      exact ⟨m, hm, hpm⟩

/-- Claim C10 (witness): the requested id "GPT-4o", differing from the
registry id "gpt-4o" only in case and not subject to prefix stripping, is
resolved at score 1.0. -/
theorem C10_case_insensitive_amended_witness :
    ∃ m, find_best_model_match (str "GPT-4o") [str "gpt-4o"] = some m ∧
      calculate_model_similarity (str "GPT-4o") m = 1 :=
  C10_case_insensitive_amended.2.2 (str "GPT-4o") (str "gpt-4o") [str "gpt-4o"]
    (by decide) (by decide) (by decide) (by decide)
